import Mathlib

/-!
Verification of the minitar archiver (src/minitar.c, src/minitar_main.c).

Shallow embedding conventions:
- bytes are `Nat` values in [0, 256); file contents and fixed-width header
  fields are `List Nat`;
- a missing file is `none`, file contents are `some bytes`;
- C `snprintf` with an octal format, `strncpy`, and the signed-`char`
  byte walk of `compute_checksum` are modelled explicitly below;
- `char` is signed on the project's x86-64 Linux target, so a byte b with
  b >= 128 contributes (b - 256) when summed through a `char *` pointer.
-/

set_option maxRecDepth 20000

namespace Minitar

/-- BLOCK_SIZE from minitar.c line 17. -/
def BLOCK_SIZE : Nat := 512

/-- Linux value of SEEK_SET. -/
def SEEK_SET : Nat := 0

/-- Linux value of SEEK_CUR. -/
def SEEK_CUR : Nat := 1

/-- Linux value of SEEK_END. -/
def SEEK_END : Nat := 2

/-- POSIX fseek accepts only SEEK_SET, SEEK_CUR or SEEK_END as `whence`;
any other value makes the call fail with EINVAL (return -1). -/
def fseek_ok (whence : Nat) : Bool :=
  whence == SEEK_SET || whence == SEEK_CUR || whence == SEEK_END

/-- Value of a byte read back through a (signed) `char *`, as in
`compute_checksum`'s loop `sum += bytes[i]` (minitar.c line 38). -/
def signedChar (b : Nat) : Int :=
  if b < 128 then (b : Int) else (b : Int) - 256

/-- Octal digits (ASCII codes, most significant first) of `n`, empty for 0.
The first argument is structural fuel; `n` itself is always enough fuel
because the value shrinks by a factor of 8 every step. -/
def octAux : Nat → Nat → List Nat
  | 0, _ => []
  | fuel + 1, n => if n = 0 then [] else octAux fuel (n / 8) ++ [n % 8 + 48]

/-- ASCII octal representation of `n` as printf's %o renders it. -/
def octStr (n : Nat) : List Nat :=
  if n = 0 then [48] else octAux n n

/-- Left-pad an ASCII digit string with '0' (48) up to width `w`. -/
def zeroPad (w : Nat) (s : List Nat) : List Nat :=
  List.replicate (w - s.length) 48 ++ s

/-- `snprintf(buf, bufsz, "%0<w>o", n)`: the zero-padded octal rendering,
truncated to `bufsz - 1` characters, followed by the terminating NUL. -/
def snprintf_oct (w bufsz n : Nat) : List Nat :=
  (zeroPad w (octStr n)).take (bufsz - 1) ++ [0]

/-- `strncpy(dst, src, n)` into a field of width `n`, where `src` is the
byte list of a NUL-free C string: copies at most `n` bytes of `src` and
NUL-pads up to `n` when `src` is shorter.  No NUL is written when
`src.length >= n`. -/
def strncpyField (src : List Nat) (n : Nat) : List Nat :=
  src.take n ++ List.replicate (n - src.length) 0

/-- Reading a byte buffer as a C string: the bytes before the first NUL. -/
def cString (l : List Nat) : List Nat :=
  l.takeWhile (fun b => b != 0)

/-- Modelled from the spec: `tar_header` is declared in minitar.h, which is
not part of src/.  Field names and widths follow spec section 3 and the
POSIX ustar layout it references (name first, 512 bytes total); the ustar
regions the spec does not list (linkname, the prefix region, trailing
padding) are zero-filled by the `memset` in `fill_tar_header` and only
contribute to the total length of 512. -/
structure TarHeader where
  name : List Nat       -- 100 bytes
  mode : List Nat       -- 8 bytes
  uid : List Nat        -- 8 bytes
  gid : List Nat        -- 8 bytes
  size : List Nat       -- 12 bytes
  mtime : List Nat      -- 12 bytes
  chksum : List Nat     -- 8 bytes
  typeflag : Nat        -- 1 byte
  linkname : List Nat   -- 100 bytes
  magic : List Nat      -- 6 bytes
  version : List Nat    -- 2 bytes
  uname : List Nat      -- 32 bytes
  gname : List Nat      -- 32 bytes
  devmajor : List Nat   -- 8 bytes
  devminor : List Nat   -- 8 bytes
  pfx : List Nat        -- 155-byte ustar prefix region, unused here
  pad : List Nat        -- 12 trailing padding bytes
deriving DecidableEq

/-- The 512 bytes of a header block, in layout order. -/
def headerBytes (h : TarHeader) : List Nat :=
  h.name ++ h.mode ++ h.uid ++ h.gid ++ h.size ++ h.mtime ++ h.chksum ++
    [h.typeflag] ++ h.linkname ++ h.magic ++ h.version ++ h.uname ++
    h.gname ++ h.devmajor ++ h.devminor ++ h.pfx ++ h.pad

/-- The header with its checksum field set to 8 ASCII spaces, as done by
`memset(header->chksum, ' ', 8)` (minitar.c line 34). -/
def blank_chksum (h : TarHeader) : TarHeader :=
  { h with chksum := List.replicate 8 32 }

/-- The value accumulated by `compute_checksum`'s loop: the bytes of the
blanked header are summed through a `char *` (signed char on x86-64 Linux)
into an `unsigned` accumulator, i.e. the signed sum reduced mod 2^32. -/
def checksum_value (h : TarHeader) : Nat :=
  ((((headerBytes (blank_chksum h)).map signedChar).sum) % (4294967296 : Int)).toNat

/-- `compute_checksum` (minitar.c lines 32-41): blank the checksum field to
spaces, sum all 512 bytes, then `snprintf(header->chksum, 8, "%07o", sum)`
(7 octal characters plus NUL fill the whole 8-byte field). -/
def compute_checksum (h : TarHeader) : TarHeader :=
  { blank_chksum h with chksum := snprintf_oct 7 8 (checksum_value h) }

/-- stat-derived metadata consumed by `fill_tar_header`; values of the C
types involved (mode_t, uid_t, ...) are unsigned machine integers. -/
structure FileMeta where
  mode : Nat
  uid : Nat
  gid : Nat
  size : Nat
  mtime : Nat
  devmajor : Nat
  devminor : Nat
deriving DecidableEq

/-- The field assignments of `fill_tar_header` (minitar.c lines 48-92),
after the initial `memset(header, 0, sizeof(tar_header))` and before the
final `compute_checksum` call.  `file_name`, `un`, `gn` are the bytes of
the NUL-free C strings for the path, owner name and group name. -/
def fill_header_fields (file_name : List Nat) (m : FileMeta) (un gn : List Nat) :
    TarHeader where
  name := strncpyField file_name 100
  mode := snprintf_oct 7 8 (m.mode % 4096)          -- st_mode & 07777
  uid := snprintf_oct 7 8 m.uid
  gid := snprintf_oct 7 8 m.gid
  size := snprintf_oct 11 12 (m.size % 4294967296)  -- (unsigned) st_size
  mtime := snprintf_oct 11 12 (m.mtime % 4294967296)
  chksum := List.replicate 8 0                      -- still zero from memset
  typeflag := 48                                    -- REGTYPE '0'
  linkname := List.replicate 100 0
  magic := strncpyField [117, 115, 116, 97, 114] 6  -- strncpy(magic, "ustar", 6)
  version := [48, 48]                               -- memcpy(version, "00", 2)
  uname := strncpyField un 32
  gname := strncpyField gn 32
  devmajor := snprintf_oct 7 8 m.devmajor
  devminor := snprintf_oct 7 8 m.devminor
  pfx := List.replicate 155 0
  pad := List.replicate 12 0

/-- The header produced by a successful run of `fill_tar_header`. -/
def fill_tar_header_ok (file_name : List Nat) (m : FileMeta) (un gn : List Nat) :
    TarHeader :=
  compute_checksum (fill_header_fields file_name m un gn)

/-- `fill_tar_header` (minitar.c lines 48-95) with its three fallible
lookups made explicit: `stat`, `getpwuid` and `getgrgid` each may fail
(modelled as `none`), in which case the function returns -1 (here `none`)
without producing a header. -/
def fill_tar_header (stat_result : Option FileMeta)
    (pwd : Option (List Nat)) (grp : Option (List Nat))
    (file_name : List Nat) : Option TarHeader :=
  match stat_result with
  | none => none
  | some m =>
    match pwd with
    | none => none
    | some un =>
      match grp with
      | none => none
      | some gn => some (fill_tar_header_ok file_name m un gn)

/-- The payload bytes `write_files` streams for one input file
(minitar.c lines 182-196): the contents are copied in 512-byte `fread`
chunks; a short final chunk is zero-padded to 512 bytes before the
`fwrite`; a file whose remaining contents are empty produces no block
(the `fread` returns 0 and the loop exits). -/
def write_payload_aux : Nat → List Nat → List Nat
  | 0, _ => []
  | _, [] => []
  | fuel + 1, b :: rest =>
    let buffer := (b :: rest).take BLOCK_SIZE
    (buffer ++ List.replicate (BLOCK_SIZE - buffer.length) 0) ++
      write_payload_aux fuel ((b :: rest).drop BLOCK_SIZE)

/-- The copy loop, with its structural fuel instantiated: each iteration
consumes at least one byte, so `contents.length` rounds of fuel always
suffice for the loop to reach the empty-read exit. -/
def write_payload (contents : List Nat) : List Nat :=
  write_payload_aux contents.length contents

/-- One input file as `write_files` sees it: the path handed to
`fill_tar_header` together with the filesystem data the syscalls in
`fill_tar_header` return for it and the bytes `fopen`/`fread` deliver. -/
structure Entry where
  name : List Nat
  meta : FileMeta
  uname : List Nat
  gname : List Nat
  contents : List Nat
deriving DecidableEq

/-- Bytes one loop iteration of `write_files` appends to the archive:
the 512-byte header block followed by the padded payload blocks. -/
def entryBytes (e : Entry) : List Nat :=
  headerBytes (fill_tar_header_ok e.name e.meta e.uname e.gname) ++
    write_payload e.contents

/-- `write_files` (minitar.c lines 145-213) under successful I/O: the
concatenation, in list order, of each entry's header and payload bytes. -/
def write_files (es : List Entry) : List Nat :=
  (es.map entryBytes).flatten

/-- `write_end_blocks` (minitar.c lines 128-143): two all-zero 512-byte
blocks. -/
def write_end_blocks : List Nat :=
  List.replicate BLOCK_SIZE 0 ++ List.replicate BLOCK_SIZE 0

/-- `create_archive` (minitar.c lines 216-245) under successful I/O:
`fopen(archive_name, "wb")` truncates, `write_files` streams all entries,
`write_end_blocks` appends the footer. -/
def create_archive (es : List Entry) : List Nat :=
  write_files es ++ write_end_blocks

/-- `remove_trailing_bytes` (minitar.c lines 102-125): truncate the file
to `size - nbytes`, clamped to zero when the file is smaller than
`nbytes` (`Nat` subtraction clamps exactly like the C code's check). -/
def remove_trailing_bytes (bytes : List Nat) (nbytes : Nat) : List Nat :=
  bytes.take (bytes.length - nbytes)

/-- `append_files_to_archive` (minitar.c lines 248-302): `fopen(.., "rb")`
fails when the archive is missing (`none`) and the function returns 1
leaving the file untouched; otherwise the 1024-byte footer is stripped,
the file is reopened, the position seeks to the end, and the new entries
plus a fresh footer are written.  The second component is the archive's
contents after the call. -/
def append_files_to_archive (archive : Option (List Nat)) (es : List Entry) :
    Nat × Option (List Nat) :=
  match archive with
  | none => (1, none)
  | some bytes =>
    (0, some (remove_trailing_bytes bytes 1024 ++ write_files es ++ write_end_blocks))

/-- `get_archive_file_list` (minitar.c lines 304-351), translated
branch-for-branch.  The body of the outer `while (fp != NULL)` loop always
returns during its first iteration, so no recursion is needed:
- `fopen` fails for a missing archive: return 1;
- `fread(buffer, 1, 512, fp)` returns at most `min 512 length` bytes; a
  result <= 0 returns 1 ("Error reading file");
- otherwise `file_list_add(files, buffer)` records the leading C string of
  the block just read (the header's name field, which sits at offset 0);
- the inner loop then calls `fseek(fp, SEEK_CUR, BLOCK_SIZE)` with the
  offset and whence arguments swapped; `whence = BLOCK_SIZE = 512` is not
  a valid whence, so the call fails with EINVAL and the function returns 1
  ("Error seeking on file").  The `fseek_ok BLOCK_SIZE` branch is
  statically dead; were the seek to succeed the inner loop could never
  exit (`fp` never becomes NULL), which the dead branch marks with the
  sentinel result 2.
The second component is the contents of the `files` out-parameter when
the function returns (names added before an error return are kept). -/
def get_archive_file_list (archive : Option (List Nat)) :
    Nat × List (List Nat) :=
  match archive with
  | none => (1, [])
  | some bytes =>
    let read_result := if bytes.length < BLOCK_SIZE then bytes.length else BLOCK_SIZE
    if read_result = 0 then (1, [])
    else
      let names := [cString (bytes.take BLOCK_SIZE)]
      if fseek_ok BLOCK_SIZE then (2, names) else (1, names)

/-- `extract_files_from_archive` (minitar.c lines 353-356): the body is a
TODO stub that performs no I/O and returns 0.  The second component is
the list of (path, contents) files the call writes to the destination
directory: always empty. -/
def extract_files_from_archive (_archive : Option (List Nat)) :
    Nat × List (List Nat × List Nat) :=
  (0, [])

/-- Results of the external calls `main` makes, so that its exit-code
logic can be stated for every outcome of the underlying operations. -/
structure SysEnv where
  create_result : Nat     -- return value of create_archive
  append_result : Nat     -- return value of append_files_to_archive
  archive_openable : Bool -- whether fopen(archive_name, "r") succeeds in the -a branch
  fclose_ok : Bool        -- whether main's own fclose succeeds
deriving DecidableEq

/-- `main` (minitar_main.c lines 7-64), argv as byte-list strings.
Note the paths the C code takes:
- `argc < 4` prints the usage message and returns 0;
- a missing `-f` in argv[2] returns 1;
- `-c` returns 1 when `create_archive` fails, else falls through to 0;
- `-a` returns 1 only when its own `fopen` or `fclose` fails; the return
  value of `append_files_to_archive` (env.append_result) is discarded;
- `-t` and `-u` have empty bodies; `-x` discards the result of
  `extract_files_from_archive`; all fall through to `return 0`;
- an unknown operation prints the usage message and returns 0. -/
def main (argv : List (List Nat)) (env : SysEnv) : Nat :=
  if argv.length < 4 then 0
  else if argv.getD 2 [] ≠ [45, 102] then 1           -- "-f"
  else
    let operation := argv.getD 1 []
    if operation = [45, 99] then                      -- "-c"
      (if env.create_result ≠ 0 then 1 else 0)
    else if operation = [45, 97] then                 -- "-a"
      (if env.archive_openable = false then 1
       else if env.fclose_ok = false then 1 else 0)
    else if operation = [45, 116] then 0              -- "-t"
    else if operation = [45, 117] then 0              -- "-u"
    else if operation = [45, 120] then 0              -- "-x"
    else 0

/-- File-handle events on the archive file, for stating the ordering
properties of the append path. -/
inductive Ev where
  | fopenOk : Ev
  | fopenFail : Ev
  | fcloseEv : Ev
  | truncateEv : Ev
  | fseekEv : Ev
  | writeEntriesEv : Ev
  | writeFooterEv : Ev
deriving DecidableEq

/-- The sequence of operations `append_files_to_archive` performs on the
archive file, in source order (minitar.c lines 248-302): the existence
check `fopen("rb")` / `fclose`, then `remove_trailing_bytes` (the
1024-byte truncation), then `fopen("r+b")`, `fseek(.., SEEK_END)`,
`write_files`, `write_end_blocks`, `fclose`.  When the archive does not
exist only the failed `fopen` happens. -/
def append_trace (archive_exists : Bool) : List Ev :=
  if archive_exists then
    [Ev.fopenOk, Ev.fcloseEv, Ev.truncateEv, Ev.fopenOk, Ev.fseekEv,
     Ev.writeEntriesEv, Ev.writeFooterEv, Ev.fcloseEv]
  else [Ev.fopenFail]

/-- The operations the whole program performs on the archive file for a
`-a` invocation (minitar_main.c lines 37-48): main's own
`fopen(archive_name, "r")`, then the entire `append_files_to_archive`
call, then main's `fclose`. -/
def main_append_trace (archive_exists : Bool) : List Ev :=
  if archive_exists then Ev.fopenOk :: (append_trace true ++ [Ev.fcloseEv])
  else [Ev.fopenFail]

/-- Whether some truncation event in the trace happens while at least one
handle on the file is open; the first argument counts the handles open
when the trace starts. -/
def truncate_while_open : Nat → List Ev → Bool
  | _, [] => false
  | k, Ev.truncateEv :: rest => (k != 0) || truncate_while_open k rest
  | k, Ev.fopenOk :: rest => truncate_while_open (k + 1) rest
  | k, Ev.fcloseEv :: rest => truncate_while_open (k - 1) rest
  | k, _ :: rest => truncate_while_open k rest

/-! ## Concrete inputs used by the scenario claims -/

/-- Sample stat metadata: mode 0644, owner/group 1000. -/
def sampleMeta : FileMeta :=
  { mode := 420, uid := 1000, gid := 1000, size := 5, mtime := 1000000000,
    devmajor := 0, devminor := 0 }

/-- The file "a.txt" with the 5 bytes "hello". -/
def aEntry : Entry :=
  { name := [97, 46, 116, 120, 116], meta := sampleMeta,
    uname := [117, 115, 101, 114], gname := [117, 115, 101, 114],
    contents := [104, 101, 108, 108, 111] }

/-- The empty file "b.txt". -/
def bEntry : Entry :=
  { name := [98, 46, 116, 120, 116],
    meta := { sampleMeta with size := 0 },
    uname := [117, 115, 101, 114], gname := [117, 115, 101, 114],
    contents := [] }

/-- The file "f.txt" with the 5 bytes "hello". -/
def fEntry : Entry :=
  { name := [102, 46, 116, 120, 116], meta := sampleMeta,
    uname := [117, 115, 101, 114], gname := [117, 115, 101, 114],
    contents := [104, 101, 108, 108, 111] }

/-! ## Helper lemmas -/

theorem strncpyField_length (src : List Nat) (n : Nat) :
    (strncpyField src n).length = n := by
  simp [strncpyField]
  omega

theorem snprintf_oct_length8 (n : Nat) : (snprintf_oct 7 8 n).length = 8 := by
  simp [snprintf_oct, zeroPad]
  omega

theorem snprintf_oct_length12 (n : Nat) : (snprintf_oct 11 12 n).length = 12 := by
  simp [snprintf_oct, zeroPad]
  omega

/-- Every header the codec emits is exactly 512 bytes. -/
theorem headerBytes_fill_length (p : List Nat) (m : FileMeta) (un gn : List Nat) :
    (headerBytes (fill_tar_header_ok p m un gn)).length = 512 := by
  simp [headerBytes, fill_tar_header_ok, compute_checksum, blank_chksum,
    fill_header_fields, strncpyField_length, snprintf_oct_length8,
    snprintf_oct_length12]

theorem write_end_blocks_length : write_end_blocks.length = 1024 := by
  simp [write_end_blocks, BLOCK_SIZE]

theorem write_payload_aux_nil (fuel : Nat) : write_payload_aux fuel [] = [] := by
  cases fuel <;> rfl

/-- The copy loop's postcondition, proved by induction on the fuel: the
blocks written are the contents followed by the zero padding up to the
next 512-byte boundary. -/
theorem write_payload_aux_spec :
    ∀ (fuel : Nat) (c : List Nat), c.length ≤ fuel →
      write_payload_aux fuel c =
        c ++ List.replicate (512 * ((c.length + 511) / 512) - c.length) 0 := by
  intro fuel
  induction fuel with
  | zero =>
    intro c hc
    have hc0 : c = [] := List.eq_nil_of_length_eq_zero (Nat.le_zero.mp hc)
    subst hc0
    rfl
  | succ n ih =>
    intro c hc
    cases c with
    | nil => rfl
    | cons b rest =>
      rw [write_payload_aux]
      simp only [BLOCK_SIZE]
      by_cases hle : (b :: rest).length ≤ 512
      · rw [List.take_of_length_le hle, List.drop_eq_nil_of_le hle,
          write_payload_aux_nil, List.append_nil]
        have h1 : (b :: rest).length = rest.length + 1 := rfl
        have hone : ((b :: rest).length + 511) / 512 = 1 := by omega
        rw [hone, Nat.mul_one]
      · have hlt : 512 < (b :: rest).length := by omega
        rw [List.length_take, Nat.min_eq_left (Nat.le_of_lt hlt)]
        rw [Nat.sub_self, List.replicate_zero, List.append_nil]
        rw [ih ((b :: rest).drop 512) (by rw [List.length_drop]; omega)]
        rw [List.length_drop]
        rw [← List.append_assoc, List.take_append_drop]
        have harith :
            512 * (((b :: rest).length - 512 + 511) / 512) - ((b :: rest).length - 512) =
              512 * (((b :: rest).length + 511) / 512) - (b :: rest).length := by
          omega
        rw [harith]

/-- The payload written for contents `c` is `c` itself followed by zeros
up to the next block boundary. -/
theorem write_payload_spec (c : List Nat) :
    write_payload c =
      c ++ List.replicate (512 * ((c.length + 511) / 512) - c.length) 0 :=
  write_payload_aux_spec c.length c (Nat.le_refl _)

theorem write_payload_length (c : List Nat) :
    (write_payload c).length = 512 * ((c.length + 511) / 512) := by
  rw [write_payload_spec]
  simp
  omega

theorem entryBytes_length (e : Entry) :
    (entryBytes e).length = 512 + 512 * ((e.contents.length + 511) / 512) := by
  simp [entryBytes, headerBytes_fill_length, write_payload_length]

/-- When the archive holds at least one block, `get_archive_file_list`
records the C string at the start of the first block and then fails with
return value 1, because the inner loop's first swapped-argument `fseek`
fails. -/
theorem get_archive_file_list_of_le (bytes : List Nat) (h : 512 ≤ bytes.length) :
    get_archive_file_list (some bytes) = (1, [cString (bytes.take 512)]) := by
  have h1 : ¬ bytes.length < BLOCK_SIZE := by unfold BLOCK_SIZE; omega
  simp only [get_archive_file_list]
  rw [if_neg h1]
  rw [if_neg (show ¬ (BLOCK_SIZE = 0) by decide)]
  rw [if_neg (show ¬ (fseek_ok BLOCK_SIZE = true) by decide)]
  rfl

/-- Reading the leading C string of `l ++ 0 :: r` stops exactly at the
appended NUL when `l` itself is NUL-free. -/
theorem cString_append_zero (l r : List Nat) (h : ∀ b ∈ l, b ≠ 0) :
    cString (l ++ 0 :: r) = l := by
  induction l with
  | nil => simp [cString]
  | cons x xs ih =>
    have hx : x ≠ 0 := h x (List.mem_cons_self x xs)
    have hxs : ∀ b ∈ xs, b ≠ 0 := fun b hb => h b (List.mem_cons_of_mem x hb)
    simp only [List.cons_append, cString, List.takeWhile_cons]
    have hxb : (x != 0) = true := by simpa using hx
    rw [hxb]
    simp only [if_true]
    have := ih hxs
    simp only [cString] at this
    rw [this]

/-- The name field the codec stores for a NUL-free path shorter than 100
bytes is the path followed by a NUL and zero padding. -/
theorem fill_name_short (p : List Nat) (m : FileMeta) (un gn : List Nat)
    (hlt : p.length < 100) :
    (fill_tar_header_ok p m un gn).name =
      p ++ 0 :: List.replicate (99 - p.length) 0 := by
  have h1 : (fill_tar_header_ok p m un gn).name = strncpyField p 100 := rfl
  rw [h1]
  unfold strncpyField
  rw [List.take_of_length_le (by omega)]
  have h2 : 100 - p.length = (99 - p.length) + 1 := by omega
  rw [h2, List.replicate_succ]

/-- Reading a header block as a C string yields exactly the name field's
string, since the name sits at offset 0 of the block. -/
theorem cString_headerBytes (h : TarHeader) (l R : List Nat)
    (hn : h.name = l ++ 0 :: R) (hl : ∀ b ∈ l, b ≠ 0) :
    cString (headerBytes h) = l := by
  unfold headerBytes
  rw [hn]
  simp only [List.append_assoc, List.cons_append]
  exact cString_append_zero _ _ hl

/-- `get_archive_file_list` on any archive that `create_archive` built
from at least one file returns 1 after collecting only the first file's
name. -/
theorem list_create_first_name (e : Entry) (es : List Entry)
    (h0 : ∀ b ∈ e.name, b ≠ 0) (hlt : e.name.length < 100) :
    get_archive_file_list (some (create_archive (e :: es))) = (1, [e.name]) := by
  have hsplit : create_archive (e :: es) =
      headerBytes (fill_tar_header_ok e.name e.meta e.uname e.gname) ++
        (write_payload e.contents ++ (write_files es ++ write_end_blocks)) := by
    simp [create_archive, write_files, entryBytes, List.append_assoc]
  have hlen : 512 ≤ (create_archive (e :: es)).length := by
    rw [hsplit]
    simp [headerBytes_fill_length]
  rw [get_archive_file_list_of_le _ hlen, hsplit]
  rw [List.take_left' (headerBytes_fill_length e.name e.meta e.uname e.gname)]
  rw [cString_headerBytes _ _ _ (fill_name_short e.name e.meta e.uname e.gname hlt) h0]

/-! ## Checksum lemmas -/

/-- The checksum value spec section 3 claims: the unsigned sum of all 512
header bytes with the checksum field replaced by 8 ASCII spaces. -/
def specUnsignedChecksum (h : TarHeader) : Nat :=
  (headerBytes (blank_chksum h)).sum

/-- The rendering spec section 3 claims for the stored checksum: a 7-digit
zero-padded octal number followed by a NUL byte. -/
def specChksumRender (s : Nat) : List Nat :=
  zeroPad 7 (octStr s) ++ [0]

theorem signedChar_sum_of_ascii (l : List Nat) (h : ∀ b ∈ l, b < 128) :
    (l.map signedChar).sum = (l.sum : Int) := by
  induction l with
  | nil => simp
  | cons x xs ih =>
    have hx : x < 128 := h x (List.mem_cons_self x xs)
    have hxs : ∀ b ∈ xs, b < 128 := fun b hb => h b (List.mem_cons_of_mem x hb)
    simp [signedChar, hx, ih hxs]

theorem sum_le_of_lt_128 (l : List Nat) (h : ∀ b ∈ l, b < 128) :
    l.sum ≤ 127 * l.length := by
  induction l with
  | nil => simp
  | cons x xs ih =>
    have hx : x < 128 := h x (List.mem_cons_self x xs)
    have hxs : ∀ b ∈ xs, b < 128 := fun b hb => h b (List.mem_cons_of_mem x hb)
    have h2 := ih hxs
    simp only [List.sum_cons, List.length_cons]
    omega

theorem octAux_mem {fuel n b : Nat} (hb : b ∈ octAux fuel n) : b < 128 := by
  induction fuel generalizing n with
  | zero => simp [octAux] at hb
  | succ f ih =>
    rw [octAux] at hb
    by_cases hn : n = 0
    · simp [hn] at hb
    · rw [if_neg hn] at hb
      rcases List.mem_append.mp hb with h1 | h1
      · exact ih h1
      · simp at h1
        omega

theorem octStr_mem {n b : Nat} (hb : b ∈ octStr n) : b < 128 := by
  unfold octStr at hb
  by_cases hn : n = 0
  · simp [hn] at hb
    omega
  · rw [if_neg hn] at hb
    exact octAux_mem hb

theorem snprintf_oct_mem {w z n b : Nat} (hb : b ∈ snprintf_oct w z n) : b < 128 := by
  unfold snprintf_oct zeroPad at hb
  rcases List.mem_append.mp hb with h1 | h1
  · have h2 := List.take_subset _ _ h1
    rcases List.mem_append.mp h2 with h3 | h3
    · have := List.eq_of_mem_replicate h3
      omega
    · exact octStr_mem h3
  · simp at h1
    omega

theorem strncpyField_mem {src : List Nat} {n b : Nat} (hb : b ∈ strncpyField src n) :
    b ∈ src ∨ b = 0 := by
  unfold strncpyField at hb
  rcases List.mem_append.mp hb with h1 | h1
  · exact Or.inl (List.take_subset _ _ h1)
  · exact Or.inr (List.eq_of_mem_replicate h1)

theorem strncpyField_lt (src : List Nat) (n : Nat) (h : ∀ b ∈ src, b < 128) :
    ∀ b ∈ strncpyField src n, b < 128 := by
  intro b hb
  rcases strncpyField_mem hb with h1 | h1
  · exact h b h1
  · omega

theorem snprintf_oct_lt (w z n : Nat) : ∀ b ∈ snprintf_oct w z n, b < 128 :=
  fun _ hb => snprintf_oct_mem hb

theorem replicate_bytes_lt (n a : Nat) (ha : a < 128) :
    ∀ b ∈ List.replicate n a, b < 128 :=
  fun _ hb => (List.eq_of_mem_replicate hb) ▸ ha

/-- Every byte of a codec-built header block whose path, owner name and
group name are ASCII is below 128. -/
theorem headerBytes_blank_fill_mem (p : List Nat) (m : FileMeta) (un gn : List Nat)
    (hp : ∀ b ∈ p, b < 128) (hu : ∀ b ∈ un, b < 128) (hg : ∀ b ∈ gn, b < 128) :
    ∀ b ∈ headerBytes (blank_chksum (fill_header_fields p m un gn)), b < 128 := by
  simp only [headerBytes, blank_chksum, fill_header_fields, List.forall_mem_append]
  repeat' apply And.intro
  all_goals first
    | exact strncpyField_lt _ _ hp
    | exact strncpyField_lt _ _ hu
    | exact strncpyField_lt _ _ hg
    | exact strncpyField_lt _ _ (by decide)
    | exact snprintf_oct_lt _ _ _
    | exact replicate_bytes_lt _ _ (by omega)
    | decide

theorem headerBytes_blank_fill_length (p : List Nat) (m : FileMeta) (un gn : List Nat) :
    (headerBytes (blank_chksum (fill_header_fields p m un gn))).length = 512 := by
  simp [headerBytes, blank_chksum, fill_header_fields, strncpyField_length,
    snprintf_oct_length8, snprintf_oct_length12]

theorem octAux_length_le : ∀ (fuel n k : Nat), n ≤ fuel → n < 8 ^ k →
    (octAux fuel n).length ≤ k := by
  intro fuel
  induction fuel with
  | zero =>
    intro n k _ _
    simp [octAux]
  | succ f ih =>
    intro n k hf hk
    rw [octAux]
    by_cases hn : n = 0
    · simp [hn]
    · rw [if_neg hn]
      match k with
      | 0 =>
        rw [pow_zero] at hk
        omega
      | k' + 1 =>
        have h1 : n / 8 ≤ f := by omega
        have h2 : n / 8 < 8 ^ k' := by
          rw [Nat.div_lt_iff_lt_mul (by norm_num : 0 < 8)]
          calc n < 8 ^ (k' + 1) := hk
            _ = 8 ^ k' * 8 := by rw [pow_succ]
        have h3 := ih (n / 8) k' h1 h2
        simp only [List.length_append, List.length_cons, List.length_nil]
        omega

theorem octStr_length_le (n k : Nat) (hk : 0 < k) (hn : n < 8 ^ k) :
    (octStr n).length ≤ k := by
  unfold octStr
  by_cases h0 : n = 0
  · simp [h0]
    omega
  · rw [if_neg h0]
    exact octAux_length_le n n k (Nat.le_refl n) hn

/-- For a sum small enough to need at most 7 octal digits, the stored
field is exactly the 7-digit zero-padded rendering plus NUL. -/
theorem snprintf_oct_eq_render (n : Nat) (hn : n < 8 ^ 7) :
    snprintf_oct 7 8 n = specChksumRender n := by
  unfold snprintf_oct specChksumRender
  have h1 : (octStr n).length ≤ 7 := octStr_length_le n 7 (by norm_num) hn
  have h2 : (zeroPad 7 (octStr n)).length = 7 := by
    unfold zeroPad
    simp
    omega
  rw [List.take_of_length_le (by omega)]

/-! ## Claim theorems -/

/-- C1: the round-trip property fails because `extract_files_from_archive`
is an unimplemented stub.  Evaluating the code at the failing input: after
`create` over the single 5-byte file "f.txt", `extract` on the resulting
archive returns 0 (success) yet writes no file at all, so the contents of
"f.txt" are not reproduced at the destination. -/
theorem c1_extract_stub :
    extract_files_from_archive (some (create_archive [fEntry])) = (0, []) := by
  rfl

/-- C10: creating an archive from an empty list of entries produces exactly
the two all-zero 512-byte end-marker blocks, a 1024-byte run of zero
bytes. -/
theorem c10_empty_create :
    create_archive [] = List.replicate 512 0 ++ List.replicate 512 0 ∧
    create_archive [] = List.replicate 1024 0 ∧
    (create_archive []).length = 1024 := by
  refine ⟨rfl, ?_, ?_⟩
  · rw [show (1024 : Nat) = 512 + 512 from rfl, List.replicate_add]
    rfl
  · simp [create_archive, write_files, write_end_blocks_length]

/-- C3: the list operation does not walk the archive as claimed.  On the
valid single-entry archive for "a.txt" it records the first header's name
and then fails (returns 1): the inner loop's `fseek(fp, SEEK_CUR,
BLOCK_SIZE)` passes the offset and whence arguments swapped, so the seek
fails with EINVAL.  It never skips payload by the header-declared size,
never reaches the end markers, and never checks checksum or magic. -/
theorem c3_list_walk_broken :
    get_archive_file_list (some (create_archive [aEntry])) =
      (1, [[97, 46, 116, 120, 116]]) := by
  have h := list_create_first_name aEntry [] (by decide) (by decide)
  simpa [aEntry] using h

/-- C8: the archive created from a.txt (5 bytes) and b.txt (0 bytes) is
2560 bytes as claimed, but `get_archive_file_list` on it does not return
["a.txt", "b.txt"]: it returns error code 1 with only "a.txt" collected,
because the first swapped-argument `fseek` of the inner loop fails. -/
theorem c8_scenario :
    (create_archive [aEntry, bEntry]).length = 2560 ∧
    get_archive_file_list (some (create_archive [aEntry, bEntry])) =
      (1, [[97, 46, 116, 120, 116]]) := by
  constructor
  · simp [create_archive, write_files, entryBytes_length, write_end_blocks_length,
      aEntry, bEntry]
  · have h := list_create_first_name aEntry [bEntry] (by decide) (by decide)
    simpa [aEntry] using h

/-- C4: the program's exit code is not non-zero on every failure.  With
every external call succeeding, `./minitar` alone (argc = 1, a usage
failure) exits 0 after printing the usage message; and a `-a` invocation
whose `append_files_to_archive` call fails (append_result = 1) also exits
0, because main discards append's return value. -/
theorem c4_exit_code_zero_on_failure :
    main [[46, 47, 109, 105, 110, 105, 116, 97, 114]]
      { create_result := 0, append_result := 0, archive_openable := true,
        fclose_ok := true } = 0 ∧
    main [[46, 47, 109, 105, 110, 105, 116, 97, 114], [45, 97], [45, 102],
        [97, 114, 99, 104, 46, 116, 97, 114], [102, 46, 116, 120, 116]]
      { create_result := 0, append_result := 1, archive_openable := true,
        fclose_ok := true } = 0 := by
  constructor
  · decide
  · decide

/-- C5: appending to a non-existent archive fails (the `fopen("rb")`
existence check returns 1) with the archive state unchanged, and the
trace of the failing run contains no truncation event: the existence
check precedes any destructive truncation. -/
theorem c5_append_missing_archive :
    (∀ es : List Entry, append_files_to_archive none es = (1, none)) ∧
    Ev.truncateEv ∉ append_trace false := by
  exact ⟨fun _ => rfl, by decide⟩

/-- C6: in a `-a` run of the program on an existing archive, the
1024-byte end-marker strip is invoked while main's own handle on the
archive file (the `fopen(archive_name, "r")` of minitar_main.c line 38)
is still open, contradicting the claim; within `append_files_to_archive`
alone the check-close-truncate-reopen sequence does hold (no handle of
its own is open at the truncation). -/
theorem c6_truncate_with_open_handle :
    truncate_while_open 0 (main_append_trace true) = true ∧
    truncate_while_open 0 (append_trace true) = false := by
  constructor
  · decide
  · decide

/-- C7: for contents of N bytes the payload written is exactly
512 * ceil(N/512) bytes, namely the contents themselves followed by
512 * ceil(N/512) - N zero bytes (the zero padding of the short final
512-byte chunk). -/
theorem c7_payload_blocks (c : List Nat) :
    (write_payload c).length = 512 * ((c.length + 511) / 512) ∧
    write_payload c =
      c ++ List.replicate (512 * ((c.length + 511) / 512) - c.length) 0 :=
  ⟨write_payload_length c, write_payload_spec c⟩

/-- C2 fails as stated: `compute_checksum` walks the header through a
plain `char *`, which is signed on the x86-64 Linux target, so the byte
0xFF in this codec-produced header (path "\xFF") contributes -1 rather
than 255 and the stored checksum is the octal rendering of a value 256
short of the unsigned sum: the field holds "0011105" while the unsigned
sum renders as "0011505". -/
theorem c2_checksum_unsigned_counterexample :
    (fill_tar_header_ok [255] sampleMeta [114, 111, 111, 116]
        [114, 111, 111, 116]).chksum ≠
      specChksumRender (specUnsignedChecksum
        (fill_tar_header_ok [255] sampleMeta [114, 111, 111, 116]
          [114, 111, 111, 116])) := by
  decide

/-- C2 (amended): for every header the codec produces from an ASCII path,
owner name and group name (every byte below 128), the stored checksum
field equals the unsigned sum of all 512 header bytes, computed with the
8-byte checksum field replaced by ASCII spaces, rendered as a 7-digit
zero-padded octal number followed by a NUL byte.  (All other header bytes
are ASCII by construction, so the signed-char walk agrees with the
unsigned sum exactly under this hypothesis.) -/
theorem c2_checksum_ascii (p : List Nat) (m : FileMeta) (un gn : List Nat)
    (hp : ∀ b ∈ p, b < 128) (hu : ∀ b ∈ un, b < 128) (hg : ∀ b ∈ gn, b < 128) :
    (fill_tar_header_ok p m un gn).chksum =
      specChksumRender (specUnsignedChecksum (fill_tar_header_ok p m un gn)) := by
  have hBmem := headerBytes_blank_fill_mem p m un gn hp hu hg
  have hBlen := headerBytes_blank_fill_length p m un gn
  set B := headerBytes (blank_chksum (fill_header_fields p m un gn)) with hB
  have hle : B.sum ≤ 127 * B.length := sum_le_of_lt_128 B hBmem
  have h1 : B.sum ≤ 65024 := by
    rw [hBlen] at hle
    omega
  have hval : checksum_value (fill_header_fields p m un gn) = B.sum := by
    unfold checksum_value
    rw [← hB]
    rw [signedChar_sum_of_ascii B hBmem]
    rw [Int.emod_eq_of_lt (Int.natCast_nonneg _) (by omega)]
    exact Int.toNat_natCast _
  have hspec : specUnsignedChecksum (fill_tar_header_ok p m un gn) = B.sum := by
    have hbl : blank_chksum (fill_tar_header_ok p m un gn) =
        blank_chksum (fill_header_fields p m un gn) := by
      simp [fill_tar_header_ok, compute_checksum, blank_chksum]
    unfold specUnsignedChecksum
    rw [hbl, ← hB]
  have hchk : (fill_tar_header_ok p m un gn).chksum =
      snprintf_oct 7 8 (checksum_value (fill_header_fields p m un gn)) := by
    simp [fill_tar_header_ok, compute_checksum]
  rw [hchk, hval, hspec]
  have h87 : (8 : Nat) ^ 7 = 2097152 := by norm_num
  exact snprintf_oct_eq_render B.sum (by omega)

/-- C2 (amended) holds at a concrete input: the header for the ASCII path
"a.txt" with owner and group name "user". -/
theorem c2_checksum_ascii_witness :
    (∀ b ∈ ([97, 46, 116, 120, 116] : List Nat), b < 128) ∧
    (∀ b ∈ ([117, 115, 101, 114] : List Nat), b < 128) ∧
    (fill_tar_header_ok [97, 46, 116, 120, 116] sampleMeta
        [117, 115, 101, 114] [117, 115, 101, 114]).chksum =
      specChksumRender (specUnsignedChecksum
        (fill_tar_header_ok [97, 46, 116, 120, 116] sampleMeta
          [117, 115, 101, 114] [117, 115, 101, 114])) :=
  ⟨by decide, by decide,
    c2_checksum_ascii [97, 46, 116, 120, 116] sampleMeta
      [117, 115, 101, 114] [117, 115, 101, 114]
      (by decide) (by decide) (by decide)⟩

/-- C9: for every NUL-free path longer than 100 bytes (with the file's
stat metadata and identity lookups available), `fill_tar_header` succeeds
and silently stores exactly the first 100 bytes of the path in the
header's 100-byte name field, which then contains no terminating NUL
byte; no error is reported. -/
theorem c9_long_name (p : List Nat) (m : FileMeta) (un gn : List Nat)
    (hlen : 100 < p.length) (hnz : ∀ b ∈ p, b ≠ 0) :
    fill_tar_header (some m) (some un) (some gn) p =
      some (fill_tar_header_ok p m un gn) ∧
    (fill_tar_header_ok p m un gn).name = p.take 100 ∧
    (fill_tar_header_ok p m un gn).name.length = 100 ∧
    ∀ b ∈ (fill_tar_header_ok p m un gn).name, b ≠ 0 := by
  have hname : (fill_tar_header_ok p m un gn).name = strncpyField p 100 := rfl
  have h2 : strncpyField p 100 = p.take 100 := by
    unfold strncpyField
    have h0 : 100 - p.length = 0 := by omega
    rw [h0, List.replicate_zero, List.append_nil]
  refine ⟨rfl, ?_, ?_, ?_⟩
  · rw [hname, h2]
  · rw [hname, h2, List.length_take, Nat.min_eq_left (by omega)]
  · rw [hname, h2]
    intro b hb
    exact hnz b (List.take_subset _ _ hb)

/-- C9 holds at a concrete input: a 101-byte path of letter 'a' bytes. -/
theorem c9_long_name_witness :
    100 < (List.replicate 101 97).length ∧
    (∀ b ∈ List.replicate 101 97, b ≠ 0) ∧
    (fill_tar_header (some sampleMeta) (some [117, 115, 101, 114])
        (some [117, 115, 101, 114]) (List.replicate 101 97) =
      some (fill_tar_header_ok (List.replicate 101 97) sampleMeta
        [117, 115, 101, 114] [117, 115, 101, 114]) ∧
    (fill_tar_header_ok (List.replicate 101 97) sampleMeta
        [117, 115, 101, 114] [117, 115, 101, 114]).name =
      (List.replicate 101 97).take 100 ∧
    (fill_tar_header_ok (List.replicate 101 97) sampleMeta
        [117, 115, 101, 114] [117, 115, 101, 114]).name.length = 100 ∧
    ∀ b ∈ (fill_tar_header_ok (List.replicate 101 97) sampleMeta
        [117, 115, 101, 114] [117, 115, 101, 114]).name, b ≠ 0) :=
  ⟨by decide, by decide,
    c9_long_name (List.replicate 101 97) sampleMeta
      [117, 115, 101, 114] [117, 115, 101, 114] (by decide) (by decide)⟩

end Minitar
